import Mathlib

/-!
Shallow embedding of the stochastic scheduling engine of `github-grid`
(`src/patterns.rs` and `calibrate_pattern_for_target` in `src/main.rs`).

Modelling conventions:
* Calendar dates (`chrono::NaiveDate`) are embedded as their `num_days_from_ce`
  ordinal, an integer.  `0001-01-01` is ordinal 1 and is a Monday in the
  proleptic Gregorian calendar, so the weekday of ordinal `d` is
  `(d - 1) % 7` with `0 = Monday, …, 6 = Sunday`.
* The ChaCha8 randomness stream of one day is embedded as an abstract stream
  `ℕ → ℚ` of draw values; every consumption passes through `Int.fract`, so a
  draw always lies in `[0, 1)` exactly as `rng.random::<f64>()` does.
  `random_range` over an inclusive integer range `lo..=hi` is
  `lo + ⌊u * (hi - lo + 1)⌋`, failing (`none`, the Rust panic) when `lo > hi`;
  over a half-open range `lo..hi` it is `lo + ⌊u * (hi - lo)⌋`; over an
  inclusive float range it is `lo + u * (hi - lo)`.
* Rust's saturating cast `as u32` of a nonnegative float is `(⌊q⌋).toNat`.
* `f64` constants of the source are embedded as the exact rationals they denote
  in the source text.
* `NaiveTime::from_hms_opt` succeeds iff hour < 24, minute < 60, second < 60.
  `Local.from_local_datetime(..).unwrap()` depends on the environment's local
  time zone: it returns a value iff the naive local date-time maps to a single
  instant (`LocalResult::Single`), and panics on DST-ambiguous or nonexistent
  local times.  The time zone is therefore an explicit model parameter
  `LocalZone`: the predicate telling which (date, hour, minute) triples are
  single-valued.  A fixed-offset environment (UTC et al.) is the zone that is
  `true` everywhere.
* `NaiveDate` is bounded: `succ_opt()` is `None` at `NaiveDate::MAX`, so the
  `succ_opt().unwrap()` calls of the generation loop panic when the walk must
  step past that date; the model keeps dates as integers and carries the
  `NaiveDate::MAX` ordinal as an explicit bound checked by `generate`.
* The process-global message RNG of `get_random_message` is an independent
  stream `ℕ → ℚ` with its own cursor; a message is identified by its index
  into `COMMIT_MESSAGES` (length 20).
-/

set_option allowUnsafeReducibility true

attribute [local semireducible] Rat.mul Rat.add Rat.sub Rat.inv

namespace GithubGrid

/-- One draw from a randomness stream: the raw stream value normalised into
`[0, 1)`, as `rng.random::<f64>()` yields. -/
def draw (s : ℕ → ℚ) (i : ℕ) : ℚ := Int.fract (s i)

/-- Shift a stream past its first `k` draws. -/
def shift (k : ℕ) (s : ℕ → ℚ) : ℕ → ℚ := fun n => s (n + k)

/-- `rng.random_range(lo..=hi)` on integers: fails (Rust panic) when the range
is empty, otherwise a value in `[lo, hi]`. -/
def intRange (lo hi : ℕ) (u : ℚ) : Option ℕ :=
  if lo ≤ hi then some (lo + (⌊Int.fract u * ((hi : ℚ) - lo + 1)⌋).toNat) else none

/-- `rng.random_range(lo..hi)` on integers (half-open). -/
def intRangeExcl (lo hi : ℕ) (u : ℚ) : Option ℕ :=
  if lo < hi then some (lo + (⌊Int.fract u * ((hi : ℚ) - lo)⌋).toNat) else none

/-- `rng.random_range(lo..=hi)` on floats. -/
def floatRange (lo hi u : ℚ) : ℚ := lo + Int.fract u * (hi - lo)

/-- Rust saturating cast of a float to `u32` (`as u32`). -/
def truncToNat (q : ℚ) : ℕ := (⌊q⌋).toNat

/-- Weekday of a date ordinal: `0 = Monday, …, 5 = Saturday, 6 = Sunday`. -/
def weekdayOf (d : ℤ) : ℕ := ((d - 1) % 7).toNat

/-- `matches!(date.weekday(), Weekday::Sat | Weekday::Sun)`. -/
def isWeekend (d : ℤ) : Bool := decide (5 ≤ weekdayOf d)

/-- `IntensityLevel` (patterns.rs lines 30-37). -/
inductive IntensityLevel
  | casual
  | active
  | maintainer
  | hyperactive
  | extreme
deriving DecidableEq

/-- `IntensityLevel::get_weekday_range` (patterns.rs lines 40-48). -/
def IntensityLevel.getWeekdayRange : IntensityLevel → ℕ × ℕ
  | .casual => (0, 5)
  | .active => (0, 15)
  | .maintainer => (2, 25)
  | .hyperactive => (5, 45)
  | .extreme => (10, 80)

/-- `IntensityLevel::get_weekend_range` (patterns.rs lines 50-58). -/
def IntensityLevel.getWeekendRange : IntensityLevel → ℕ × ℕ
  | .casual => (0, 3)
  | .active => (0, 5)
  | .maintainer => (0, 10)
  | .hyperactive => (0, 20)
  | .extreme => (2, 35)

/-- `IntensityLevel::get_work_probability` (patterns.rs lines 60-68). -/
def IntensityLevel.getWorkProbability : IntensityLevel → ℚ
  | .casual => 15/100
  | .active => 65/100
  | .maintainer => 75/100
  | .hyperactive => 85/100
  | .extreme => 92/100

/-- Weekend work probabilities of `should_work_today` (patterns.rs lines 209-216). -/
def IntensityLevel.getWeekendWorkProbability : IntensityLevel → ℚ
  | .casual => 5/100
  | .active => 15/100
  | .maintainer => 25/100
  | .hyperactive => 35/100
  | .extreme => 50/100

/-- Per-level spike caps of `get_base_commits` (patterns.rs lines 251-257). -/
def IntensityLevel.spikeCap : IntensityLevel → ℕ
  | .casual => 15
  | .active => 40
  | .maintainer => 60
  | .hyperactive => 100
  | .extreme => 150

/-- `PatternConfig` (patterns.rs lines 89-97). -/
structure PatternConfig where
  intensity : IntensityLevel
  useWeeklyRhythm : Bool
  vacationFrequency : ℚ
  vacationDuration : ℕ × ℕ
  spikeProbability : ℚ
  spikeMultiplier : ℚ
deriving DecidableEq

/-- `PatternConfig::casual` (patterns.rs lines 100-109). -/
def PatternConfig.casual : PatternConfig :=
  { intensity := .casual
    useWeeklyRhythm := false
    vacationFrequency := 2/100
    vacationDuration := (0, 0)
    spikeProbability := 8/100
    spikeMultiplier := 5/2 }

/-- `PatternConfig::active` (patterns.rs lines 111-120). -/
def PatternConfig.active : PatternConfig :=
  { intensity := .active
    useWeeklyRhythm := true
    vacationFrequency := 3/100
    vacationDuration := (2, 7)
    spikeProbability := 12/100
    spikeMultiplier := 2 }

/-- `PatternConfig::maintainer` (patterns.rs lines 122-131). -/
def PatternConfig.maintainer : PatternConfig :=
  { intensity := .maintainer
    useWeeklyRhythm := true
    vacationFrequency := 4/100
    vacationDuration := (3, 10)
    spikeProbability := 15/100
    spikeMultiplier := 9/5 }

/-- `PatternConfig::hyperactive` (patterns.rs lines 133-142). -/
def PatternConfig.hyperactive : PatternConfig :=
  { intensity := .hyperactive
    useWeeklyRhythm := true
    vacationFrequency := 25/1000
    vacationDuration := (2, 5)
    spikeProbability := 20/100
    spikeMultiplier := 11/5 }

/-- `PatternConfig::extreme` (patterns.rs lines 144-153). -/
def PatternConfig.extreme : PatternConfig :=
  { intensity := .extreme
    useWeeklyRhythm := true
    vacationFrequency := 2/100
    vacationDuration := (1, 4)
    spikeProbability := 25/100
    spikeMultiplier := 5/2 }

/-- Custom config of `SteadyPattern::new` (patterns.rs lines 376-383). -/
def steadyConfig : PatternConfig :=
  { intensity := .active
    useWeeklyRhythm := false
    vacationFrequency := 5/1000
    vacationDuration := (1, 2)
    spikeProbability := 2/100
    spikeMultiplier := 6/5 }

/-- Custom config of `SporadicPattern::new` (patterns.rs lines 399-406). -/
def sporadicConfig : PatternConfig :=
  { intensity := .active
    useWeeklyRhythm := false
    vacationFrequency := 2/100
    vacationDuration := (1, 5)
    spikeProbability := 15/100
    spikeMultiplier := 3 }

/-- Custom config of `ContractorPattern::new` (patterns.rs lines 422-429). -/
def contractorConfig : PatternConfig :=
  { intensity := .active
    useWeeklyRhythm := true
    vacationFrequency := 8/1000
    vacationDuration := (2, 4)
    spikeProbability := 8/100
    spikeMultiplier := 7/5 }

/-- Base weekday multipliers of `get_weekly_multiplier` (patterns.rs lines 73-81). -/
def weeklyBase (w : ℕ) : ℚ :=
  if w = 0 then 7/10
  else if w ≤ 3 then 11/10
  else if w = 4 then 8/10
  else 6/10

/-- `get_weekly_multiplier` (patterns.rs lines 72-86): base plus jitter in
`[-0.05, 0.05]`, floored at `0.1`. -/
def getWeeklyMultiplier (d : ℤ) (u : ℚ) : ℚ :=
  max (weeklyBase (weekdayOf d) + floatRange (-(5/100)) (5/100) u) (1/10)

/-- `ConfigurablePattern::should_work_today` (patterns.rs lines 204-226).
Draw 0 is the `±0.1` jitter, draw 1 is the gate draw; the jittered
probability is clamped to `[0, 1]`. -/
def shouldWorkToday (cfg : PatternConfig) (d : ℤ) (s : ℕ → ℚ) : Bool :=
  let base :=
    if isWeekend d then cfg.intensity.getWeekendWorkProbability
    else cfg.intensity.getWorkProbability
  let probability := min (max (base + floatRange (-(1/10)) (1/10) (s 0)) 0) 1
  decide (draw s 1 < probability)

/-- The weekend/weekday range selection of `get_base_commits`
(patterns.rs lines 229-235). -/
def dayRange (cfg : PatternConfig) (d : ℤ) : ℕ × ℕ :=
  if isWeekend d then cfg.intensity.getWeekendRange
  else cfg.intensity.getWeekdayRange

/-- The weekly-rhythm step of `get_base_commits` (patterns.rs lines 239-243):
the count after the optional rhythm multiplication, with the index of the
day stream's next unconsumed draw (the base draw was draw 0, the rhythm
jitter draw 1 when enabled). -/
def applyRhythm (cfg : PatternConfig) (d : ℤ) (c0 : ℕ) (s : ℕ → ℚ) : ℕ × ℕ :=
  if cfg.useWeeklyRhythm then
    (truncToNat ((c0 : ℚ) * getWeeklyMultiplier d (s 1)), 2)
  else (c0, 1)

/-- The spike step of `get_base_commits` (patterns.rs lines 245-258): draw the
spike gate at index `i1`; on a spike, draw the variation in `[0.5, 1.5]`,
multiply and clamp to the level's cap. -/
def applySpike (cfg : PatternConfig) (c1 i1 : ℕ) (s : ℕ → ℚ) : ℕ × ℕ :=
  if draw s i1 < cfg.spikeProbability then
    let multiplier := cfg.spikeMultiplier + floatRange (5/10) (15/10) (s (i1 + 1))
    (min (truncToNat ((c1 : ℚ) * multiplier)) cfg.intensity.spikeCap, i1 + 2)
  else (c1, i1 + 1)

/-- The zero-floor step of `get_base_commits` (patterns.rs lines 260-265):
a zero count is kept with probability `0.3` (consuming one draw), otherwise
the count is floored at 1. -/
def zeroFloor (c2 i2 : ℕ) (s : ℕ → ℚ) : ℕ × ℕ :=
  if c2 = 0 then
    if draw s i2 < 3/10 then (0, i2 + 1) else (max c2 1, i2 + 1)
  else (max c2 1, i2)

/-- `ConfigurablePattern::get_base_commits` (patterns.rs lines 228-266).
Returns the day's commit count together with the number of draws consumed.
Draw 0 is the base range draw; the rhythm jitter (when enabled), the spike
gate, the spike variation (on spike days) and the zero-floor draw (when the
count is zero) follow in the source's order. -/
def getBaseCommits (cfg : PatternConfig) (d : ℤ) (s : ℕ → ℚ) : Option (ℕ × ℕ) :=
  match intRange (dayRange cfg d).1 (dayRange cfg d).2 (s 0) with
  | none => none
  | some c0 =>
    let r1 := applyRhythm cfg d c0 s
    let r2 := applySpike cfg r1.1 r1.2 s
    some (zeroFloor r2.1 r2.2 s)

/-- The local timestamp of a generated commit: a date ordinal, an hour and a
minute (seconds are always zero in the source). -/
structure Timestamp where
  date : ℤ
  hour : ℕ
  minute : ℕ
deriving DecidableEq

/-- `CommitInfo` (patterns.rs lines 5-9); the message is identified by its
index into `COMMIT_MESSAGES`. -/
structure CommitInfo where
  ts : Timestamp
  message : ℕ
deriving DecidableEq

/-- `NaiveTime::from_hms_opt` (used at patterns.rs line 185). -/
def fromHmsOpt (h m sec : ℕ) : Option (ℕ × ℕ × ℕ) :=
  if h < 24 ∧ m < 60 ∧ sec < 60 then some (h, m, sec) else none

/-- The environment's local time zone, abstracted to what
`Local.from_local_datetime` observes of it: whether a naive local
(date, hour, minute) maps to a single instant (`LocalResult::Single`).
DST-ambiguous and DST-nonexistent local times are `false`. -/
def LocalZone : Type := ℤ → ℕ → ℕ → Bool

/-- A fixed-offset environment (UTC and friends): every local date-time is
single-valued. -/
def alwaysSingleZone : LocalZone := fun _ _ _ => true

/-- `get_random_message` (patterns.rs lines 179-182): a uniform index into the
20-element message pool, drawn from the process-global message stream. -/
def getRandomMessage (u : ℚ) : ℕ := (⌊Int.fract u * 20⌋).toNat

/-- `create_commit_at_time` (patterns.rs lines 184-192): build the naive time
with `from_hms_opt`, then convert with `Local.from_local_datetime(..).unwrap()`,
which yields a value only when the zone maps the local date-time to a single
instant and otherwise panics (`none`). -/
def createCommitAtTime (tz : LocalZone) (d : ℤ) (h m : ℕ) (msg : ℕ) :
    Option CommitInfo :=
  match fromHmsOpt h m 0 with
  | none => none
  | some t => if tz d t.1 t.2.1 then some ⟨⟨d, t.1, t.2.1⟩, msg⟩ else none

/-- The per-day commit loop of `generate` (patterns.rs lines 306-310): each of
the `n` commits draws an hour in `6..=23` and a minute in `0..60` from the
day's stream, and a message from the message stream at cursor `mi`. -/
def mkDayEvents (tz : LocalZone) (d : ℤ) (s : ℕ → ℚ) (ms : ℕ → ℚ) (mi : ℕ) :
    ℕ → Option (List CommitInfo)
  | 0 => some []
  | Nat.succ k =>
    match intRange 6 23 (s 0), intRangeExcl 0 60 (s 1) with
    | some h, some m =>
      match createCommitAtTime tz d h m (getRandomMessage (ms mi)) with
      | none => none
      | some c => (mkDayEvents tz d (shift 2 s) ms (mi + 1) k).map (c :: ·)
    | _, _ => none

/-- The mutable cursor of the generation walk: `in_vacation`, `vacation_end`
(patterns.rs lines 272-273) and the message-stream cursor. -/
structure WalkState where
  inVacation : Bool
  vacationEnd : ℤ
  msgIdx : ℕ
deriving DecidableEq

/-- One iteration of the `while current <= end` loop of
`ConfigurablePattern::generate` (patterns.rs lines 276-313) at date `d` with
day stream `s`: the vacation trigger (draws 0 and 1), the vacation skip with
its end-of-vacation check, the work gate (draws 1 and 2), the volume model
(draws from 3 on) and the per-commit time draws. -/
def stepDay (cfg : PatternConfig) (tz : LocalZone) (ms : ℕ → ℚ) (d : ℤ)
    (s : ℕ → ℚ) (st : WalkState) : Option (WalkState × List CommitInfo) :=
  if st.inVacation then
    some ({ st with inVacation := decide (d < st.vacationEnd) }, [])
  else if draw s 0 < cfg.vacationFrequency then
    match intRange cfg.vacationDuration.1 cfg.vacationDuration.2 (s 1) with
    | none => none
    | some len =>
      some ({ st with
              inVacation := decide (d < d + (len : ℤ))
              vacationEnd := d + (len : ℤ) }, [])
  else if shouldWorkToday cfg d (shift 1 s) then
    match getBaseCommits cfg d (shift 3 s) with
    | none => none
    | some nc =>
      match mkDayEvents tz d (shift (3 + nc.2) s) ms st.msgIdx nc.1 with
      | none => none
      | some evs => some ({ st with msgIdx := st.msgIdx + nc.1 }, evs)
  else
    some (st, [])

/-- The generation walk over a list of consecutive dates, threading the
`WalkState` and concatenating each day's events in order. -/
def walk (cfg : PatternConfig) (tz : LocalZone) (streams : ℤ → ℕ → ℚ)
    (ms : ℕ → ℚ) : List ℤ → WalkState → Option (List CommitInfo)
  | [], _ => some []
  | d :: ds, st =>
    match stepDay cfg tz ms d (streams d) st with
    | none => none
    | some (st', evs) => (walk cfg tz streams ms ds st').map (evs ++ ·)

/-- The ascending list of dates of the closed interval `[start, endD]`. -/
def dateRange (start endD : ℤ) : List ℤ :=
  (List.range (endD + 1 - start).toNat).map (fun (k : ℕ) => start + (k : ℤ))

/-- The comparison key of the final `commits.sort_by_key(|c| c.date)`
(patterns.rs line 315): lexicographic on (date, hour, minute). -/
def tsLE (a b : CommitInfo) : Bool :=
  decide (a.ts.date < b.ts.date ∨
    (a.ts.date = b.ts.date ∧ (a.ts.hour < b.ts.hour ∨
      (a.ts.hour = b.ts.hour ∧ a.ts.minute ≤ b.ts.minute))))

/-- The `num_days_from_ce` ordinal of `NaiveDate::MAX`, December 31, 262142 CE
(chrono caps years at `(i32::MAX >> 13) - 1 = 262142` to keep offset
headroom): `365 * 262142 + (262142/4 - 262142/100 + 262142/400) =
95681830 + 63569`.  `succ_opt()` returns `None` exactly at this date, so the
loop's `current.succ_opt().unwrap()` (patterns.rs lines 293, 299, 312) panics
whenever the walk has to step past it. -/
def naiveDateMaxOrdinal : ℤ := 95745399

/-- `ConfigurablePattern::generate` (patterns.rs lines 270-317): walk the
closed date interval starting in the ACTIVE state with `vacation_end = start`,
then stably sort the produced events by timestamp.  `streams` gives each
date's day-seeded stream, `ms` is the global message stream.  A run whose
walk reaches `NaiveDate::MAX` still has to execute
`current.succ_opt().unwrap()` after that day, which panics (`none`). -/
def generate (cfg : PatternConfig) (tz : LocalZone) (streams : ℤ → ℕ → ℚ)
    (ms : ℕ → ℚ) (start endD : ℤ) : Option (List CommitInfo) :=
  match walk cfg tz streams ms (dateRange start endD) ⟨false, start, 0⟩ with
  | none => none
  | some l =>
    if start ≤ endD ∧ naiveDateMaxOrdinal ≤ endD then none
    else some (l.mergeSort tsLE)

/-- The work-gate-plus-volume computation of one day (the spec's
DailyVolumeModel): `should_work_today` (draws 0 and 1) gating
`get_base_commits` (draws from 2 on); a failed gate yields count 0
(patterns.rs lines 298-304). -/
def dailyVolume (cfg : PatternConfig) (d : ℤ) (s : ℕ → ℚ) : Option ℕ :=
  if shouldWorkToday cfg d s then (getBaseCommits cfg d (shift 2 s)).map Prod.fst
  else some 0

/-- The seed mix of `date_rng` (patterns.rs lines 16-27): the date ordinal as
`u64` (sign-extended, hence reduced mod `2^64`), wrapping-multiplied by
`1000000`, plus the wall-clock entropy reduced mod `1000`, in `u64`
arithmetic. -/
def dateSeed (d : ℤ) (entropy : ℕ) : ℕ :=
  ((d % (2 ^ 64 : ℤ)).toNat * 1000000 % 2 ^ 64 + entropy % 1000) % 2 ^ 64

/-- A day's volume evaluation as performed with `date_rng`: `chacha` is the
(arbitrary) seed-to-stream function of `ChaCha8Rng::seed_from_u64`. -/
def dailyVolumeSeeded (chacha : ℕ → ℕ → ℚ) (cfg : PatternConfig) (d : ℤ)
    (entropy : ℕ) : Option ℕ :=
  dailyVolume cfg d (chacha (dateSeed d entropy))

/-- The config wrapped by `RealisticPattern::new` (patterns.rs lines 359-365). -/
def RealisticPattern.config : PatternConfig := PatternConfig.active

/-- The config wrapped by `ActivePattern::new` (patterns.rs lines 456-462). -/
def ActivePattern.config : PatternConfig := PatternConfig.active

/-- `RealisticPattern::generate` (patterns.rs lines 367-371): delegation to
the inner configurable pattern. -/
def RealisticPattern.generate (tz : LocalZone) (streams : ℤ → ℕ → ℚ)
    (ms : ℕ → ℚ) (start endD : ℤ) : Option (List CommitInfo) :=
  GithubGrid.generate RealisticPattern.config tz streams ms start endD

/-- `ActivePattern::generate` (patterns.rs lines 464-468). -/
def ActivePattern.generate (tz : LocalZone) (streams : ℤ → ℕ → ℚ)
    (ms : ℕ → ℚ) (start endD : ℤ) : Option (List CommitInfo) :=
  GithubGrid.generate ActivePattern.config tz streams ms start endD

/-- `create_pattern` (main.rs lines 263-278), returning the configuration the
named pattern wraps; an unknown name is the `Config` error (`none`). -/
def createPattern (name : String) : Option PatternConfig :=
  if name = "realistic" then some RealisticPattern.config
  else if name = "steady" then some steadyConfig
  else if name = "sporadic" then some sporadicConfig
  else if name = "contractor" then some contractorConfig
  else if name = "casual" then some PatternConfig.casual
  else if name = "active" then some ActivePattern.config
  else if name = "maintainer" then some PatternConfig.maintainer
  else if name = "hyperactive" then some PatternConfig.hyperactive
  else if name = "extreme" then some PatternConfig.extreme
  else none

/-- The per-level vacation frequency table of `calibrate_pattern_for_target`
(main.rs lines 480-486). -/
def calibVacationFreq : IntensityLevel → ℚ
  | .casual => 3/100
  | .active => 2/100
  | .maintainer => 15/1000
  | .hyperactive => 1/100
  | .extreme => 8/1000

/-- The per-level spike probability table of `calibrate_pattern_for_target`
(main.rs lines 489-495). -/
def calibSpikeProb : IntensityLevel → ℚ
  | .casual => 18/100
  | .active => 22/100
  | .maintainer => 28/100
  | .hyperactive => 32/100
  | .extreme => 38/100

/-- `calibrate_pattern_for_target` (main.rs lines 460-505). -/
def calibratePatternForTarget (commitsNeeded : ℕ) (daysInRange : ℤ) : PatternConfig :=
  let avgPerDay : ℚ := (commitsNeeded : ℚ) / (daysInRange : ℚ)
  let targetAvg := avgPerDay * (9/10)
  let intensity :=
    if targetAvg < 5 then IntensityLevel.casual
    else if targetAvg < 15 then IntensityLevel.active
    else if targetAvg < 30 then IntensityLevel.maintainer
    else if targetAvg < 50 then IntensityLevel.hyperactive
    else IntensityLevel.extreme
  { intensity := intensity
    useWeeklyRhythm := true
    vacationFrequency := calibVacationFreq intensity
    spikeProbability := calibSpikeProb intensity
    vacationDuration := (1, 4)
    spikeMultiplier := 14/5 }

/-- The position of a level in the five-tier ordering, `casual` lowest. -/
def levelIdx : IntensityLevel → ℕ
  | .casual => 0
  | .active => 1
  | .maintainer => 2
  | .hyperactive => 3
  | .extreme => 4

theorem draw_nonneg (s : ℕ → ℚ) (i : ℕ) : 0 ≤ draw s i :=
  Int.fract_nonneg (s i)

theorem draw_lt_one (s : ℕ → ℚ) (i : ℕ) : draw s i < 1 :=
  Int.fract_lt_one (s i)

theorem intRange_eq_none {lo hi : ℕ} (h : hi < lo) (u : ℚ) :
    intRange lo hi u = none := by
  unfold intRange
  simp [Nat.not_le.mpr h]

theorem intRange_bounds {lo hi : ℕ} {u : ℚ} {n : ℕ}
    (h : intRange lo hi u = some n) : lo ≤ n ∧ n ≤ hi := by
  unfold intRange at h
  split at h
  case isTrue hle =>
    have h0 : (0 : ℚ) ≤ Int.fract u := Int.fract_nonneg u
    have h1 : Int.fract u < 1 := Int.fract_lt_one u
    have hk : (0 : ℚ) < (hi : ℚ) - lo + 1 := by
      have : (lo : ℚ) ≤ (hi : ℚ) := by exact_mod_cast hle
      linarith
    have hmul : Int.fract u * ((hi : ℚ) - lo + 1) < (hi : ℚ) - lo + 1 := by
      calc Int.fract u * ((hi : ℚ) - lo + 1) < 1 * ((hi : ℚ) - lo + 1) :=
            mul_lt_mul_of_pos_right h1 hk
        _ = (hi : ℚ) - lo + 1 := one_mul _
    have hfl : ⌊Int.fract u * ((hi : ℚ) - lo + 1)⌋ < (hi : ℤ) - lo + 1 := by
      rw [Int.floor_lt]
      push_cast
      linarith
    have hfl0 : 0 ≤ ⌊Int.fract u * ((hi : ℚ) - lo + 1)⌋ :=
      Int.floor_nonneg.mpr (mul_nonneg h0 (le_of_lt hk))
    cases h
    omega
  case isFalse => cases h

theorem truncToNat_le {q : ℚ} {n : ℕ} (h : q < (n : ℚ) + 1) : truncToNat q ≤ n := by
  unfold truncToNat
  have hfl : ⌊q⌋ < (n : ℤ) + 1 := by
    rw [Int.floor_lt]
    push_cast
    exact h
  omega

theorem weeklyBase_le (w : ℕ) : weeklyBase w ≤ 11/10 := by
  unfold weeklyBase
  split
  · norm_num
  split
  · norm_num
  split <;> norm_num

theorem getWeeklyMultiplier_nonneg (d : ℤ) (u : ℚ) : 0 ≤ getWeeklyMultiplier d u := by
  unfold getWeeklyMultiplier
  have : (0 : ℚ) ≤ 1/10 := by norm_num
  exact le_trans this (le_max_right _ _)

theorem getWeeklyMultiplier_lt (d : ℤ) (u : ℚ) : getWeeklyMultiplier d u < 23/20 := by
  unfold getWeeklyMultiplier floatRange
  have hb := weeklyBase_le (weekdayOf d)
  have h0 : (0 : ℚ) ≤ Int.fract u := Int.fract_nonneg u
  have h1 : Int.fract u < 1 := Int.fract_lt_one u
  have hjit : Int.fract u * (5/100 - -(5/100)) < 1/10 := by nlinarith
  have hjit0 : 0 ≤ Int.fract u * (5/100 - -(5/100)) := by positivity
  apply max_lt
  · nlinarith
  · norm_num

theorem mem_dateRange {start endD x : ℤ} :
    x ∈ dateRange start endD ↔ start ≤ x ∧ x ≤ endD := by
  unfold dateRange
  simp only [List.mem_map, List.mem_range]
  constructor
  · rintro ⟨k, hk, rfl⟩
    omega
  · intro hx
    exact ⟨(x - start).toNat, by omega, by omega⟩

theorem dateRange_eq_nil {start endD : ℤ} (h : endD < start) :
    dateRange start endD = [] := by
  unfold dateRange
  have : (endD + 1 - start).toNat = 0 := by omega
  rw [this]
  rfl

theorem dateRange_cons {start endD : ℤ} (h : start ≤ endD) :
    dateRange start endD = start :: dateRange (start + 1) endD := by
  unfold dateRange
  have h1 : (endD + 1 - start).toNat = (endD + 1 - (start + 1)).toNat + 1 := by omega
  rw [h1, List.range_succ_eq_map, List.map_cons, List.map_map]
  simp only [Nat.cast_zero, add_zero]
  refine congrArg (start :: ·) (List.map_congr_left fun k _ => ?_)
  simp only [Function.comp_apply]
  push_cast
  ring

theorem tsLE_trans (a b c : CommitInfo) (hab : tsLE a b) (hbc : tsLE b c) :
    tsLE a c := by
  simp only [tsLE, decide_eq_true_eq] at hab hbc ⊢
  omega

theorem tsLE_total (a b : CommitInfo) : tsLE a b || tsLE b a := by
  simp only [tsLE, Bool.or_eq_true, decide_eq_true_eq]
  omega

theorem createCommitAtTime_date {tz : LocalZone} {d : ℤ} {hh mm msg : ℕ}
    {c : CommitInfo} (hc : createCommitAtTime tz d hh mm msg = some c) :
    c.ts.date = d := by
  unfold createCommitAtTime fromHmsOpt at hc
  split at hc
  · cases hc
  · split at hc
    · cases hc
      rfl
    · cases hc

theorem mkDayEvents_date {tz : LocalZone} {d : ℤ} {ms : ℕ → ℚ} :
    ∀ {n : ℕ} {s : ℕ → ℚ} {mi : ℕ} {l : List CommitInfo},
      mkDayEvents tz d s ms mi n = some l → ∀ e ∈ l, e.ts.date = d := by
  intro n
  induction n with
  | zero =>
    intro s mi l h e he
    cases h
    cases he
  | succ k ih =>
    intro s mi l h e he
    unfold mkDayEvents at h
    cases hh : intRange 6 23 (s 0) with
    | none =>
      rw [hh] at h
      simp at h
    | some hr =>
      cases hm : intRangeExcl 0 60 (s 1) with
      | none =>
        rw [hh, hm] at h
        simp at h
      | some mr =>
        rw [hh, hm] at h
        dsimp only at h
        cases hc : createCommitAtTime tz d hr mr (getRandomMessage (ms mi)) with
        | none =>
          rw [hc] at h
          simp at h
        | some c =>
          rw [hc] at h
          obtain ⟨l2, hl2, rfl⟩ := Option.map_eq_some'.mp h
          rcases List.mem_cons.mp he with rfl | he2
          · exact createCommitAtTime_date hc
          · exact ih hl2 e he2

theorem stepDay_vacation {cfg : PatternConfig} {tz : LocalZone} {ms : ℕ → ℚ}
    {d : ℤ} {s : ℕ → ℚ} {st : WalkState} (h : st.inVacation = true) :
    stepDay cfg tz ms d s st =
      some ({ st with inVacation := decide (d < st.vacationEnd) }, []) := by
  simp [stepDay, h]

theorem stepDay_trigger {cfg : PatternConfig} {tz : LocalZone} {ms : ℕ → ℚ}
    {d : ℤ} {s : ℕ → ℚ} {st : WalkState} {len : ℕ} (h : st.inVacation = false)
    (ht : draw s 0 < cfg.vacationFrequency)
    (hl : intRange cfg.vacationDuration.1 cfg.vacationDuration.2 (s 1) = some len) :
    stepDay cfg tz ms d s st =
      some ({ st with
              inVacation := decide (d < d + (len : ℤ))
              vacationEnd := d + (len : ℤ) }, []) := by
  simp [stepDay, h, ht, hl]

theorem stepDay_dates {cfg : PatternConfig} {tz : LocalZone} {ms : ℕ → ℚ}
    {d : ℤ} {s : ℕ → ℚ} {st st2 : WalkState} {devs : List CommitInfo}
    (h : stepDay cfg tz ms d s st = some (st2, devs)) :
    ∀ e ∈ devs, e.ts.date = d := by
  unfold stepDay at h
  split at h
  · cases h
    intro e he
    cases he
  · split at h
    · split at h
      · cases h
      · cases h
        intro e he
        cases he
    · split at h
      · split at h
        · cases h
        · split at h
          · cases h
          · rename_i nc hnc devs2 hmk
            cases h
            exact mkDayEvents_date hmk
      · cases h
        intro e he
        cases he

theorem walk_dates {cfg : PatternConfig} {tz : LocalZone} {streams : ℤ → ℕ → ℚ}
    {ms : ℕ → ℚ} :
    ∀ {ds : List ℤ} {st : WalkState} {evs : List CommitInfo},
      walk cfg tz streams ms ds st = some evs → ∀ e ∈ evs, e.ts.date ∈ ds := by
  intro ds
  induction ds with
  | nil =>
    intro st evs h e he
    cases h
    cases he
  | cons d ds ih =>
    intro st evs h e he
    unfold walk at h
    cases hs : stepDay cfg tz ms d (streams d) st with
    | none =>
      rw [hs] at h
      simp at h
    | some p =>
      obtain ⟨st2, devs⟩ := p
      rw [hs] at h
      dsimp only at h
      obtain ⟨rest, hrest, rfl⟩ := Option.map_eq_some'.mp h
      rcases List.mem_append.mp he with h1 | h2
      · exact (stepDay_dates hs e h1) ▸ List.mem_cons_self d ds
      · exact List.mem_cons_of_mem d (ih hrest e h2)

/-- A constant day-stream family used to instantiate theorems on concrete
runs: every draw is `1/2`. -/
def halfStream : ℤ → ℕ → ℚ := fun _ _ => 1/2

/-- A constant message stream: every message draw is `0`. -/
def msgStream0 : ℕ → ℚ := fun _ => 0

/-- A concrete day-stream family for the vacation scenarios: on day 0 the
vacation trigger draw is 0 (the trigger fires); on every day the work-gate
draw (index 2) is 0 and the base-range draw (index 3) is `9/10`; every other
draw is `1/2`. -/
def probeStream : ℤ → ℕ → ℚ := fun d n =>
  if n = 0 then (if d = 0 then 0 else 1/2)
  else if n = 2 then 0
  else if n = 3 then 9/10
  else 1/2

/-- A configuration with a certain-to-fire vacation trigger on day 0 of
`probeStream` and a one-day vacation length. -/
def vacationProbeConfig : PatternConfig :=
  { intensity := .casual
    useWeeklyRhythm := false
    vacationFrequency := 1/2
    vacationDuration := (1, 1)
    spikeProbability := 0
    spikeMultiplier := 0 }

/-- `vacationProbeConfig` with the degenerate vacation duration `(0, 0)`. -/
def zeroDurationConfig : PatternConfig :=
  { vacationProbeConfig with vacationDuration := (0, 0) }

/-- A configuration violating every constructor-side validity condition of
the spec: an empty-at-runtime vacation range with min > max, and
probabilities outside `[0, 1]`. -/
def invalidConfig : PatternConfig :=
  { intensity := .casual
    useWeeklyRhythm := false
    vacationFrequency := 2
    vacationDuration := (5, 2)
    spikeProbability := 3
    spikeMultiplier := -1 }

/-- `invalidConfig` with a non-empty vacation range, keeping the out-of-range
probabilities. -/
def invalidFreqConfig : PatternConfig :=
  { invalidConfig with vacationDuration := (0, 0) }

theorem generate_eq_some {cfg : PatternConfig} {tz : LocalZone}
    {streams : ℤ → ℕ → ℚ} {ms : ℕ → ℚ} {start endD : ℤ} {l : List CommitInfo}
    (hw : walk cfg tz streams ms (dateRange start endD) ⟨false, start, 0⟩ = some l)
    (hmax : endD < naiveDateMaxOrdinal) :
    generate cfg tz streams ms start endD = some (l.mergeSort tsLE) := by
  unfold generate
  rw [hw]
  dsimp only
  rw [if_neg (by omega)]

theorem generate_none_of_walk {cfg : PatternConfig} {tz : LocalZone}
    {streams : ℤ → ℕ → ℚ} {ms : ℕ → ℚ} {start endD : ℤ}
    (hw : walk cfg tz streams ms (dateRange start endD) ⟨false, start, 0⟩ = none) :
    generate cfg tz streams ms start endD = none := by
  unfold generate
  rw [hw]

/-- C3: for every `start ≤ end`, every configuration, every time zone and
every randomness, each event of a successful `generate` run has its date
inside the closed interval `[start, end]`, and the returned sequence is
sorted non-decreasingly by timestamp. -/
theorem generate_in_window_and_sorted (cfg : PatternConfig) (tz : LocalZone)
    (streams : ℤ → ℕ → ℚ) (ms : ℕ → ℚ) (start endD : ℤ) (evs : List CommitInfo)
    (hse : start ≤ endD)
    (hgen : generate cfg tz streams ms start endD = some evs) :
    evs.all (fun e => decide (start ≤ e.ts.date) && decide (e.ts.date ≤ endD)) = true ∧
    evs.Pairwise (fun a b => tsLE a b = true) := by
  unfold generate at hgen
  cases hw : walk cfg tz streams ms (dateRange start endD) ⟨false, start, 0⟩ with
  | none =>
    rw [hw] at hgen
    cases hgen
  | some l =>
    rw [hw] at hgen
    dsimp only at hgen
    split at hgen
    · cases hgen
    · cases hgen
      constructor
      · rw [List.all_eq_true]
        intro e he
        have he2 : e ∈ l := List.mem_mergeSort.mp he
        have hmem := mem_dateRange.mp (walk_dates hw e he2)
        simp [hmem.1, hmem.2]
      · exact List.sorted_mergeSort tsLE_trans tsLE_total l

theorem generate_in_window_and_sorted_witness :
    (0 : ℤ) ≤ 0 ∧
    generate PatternConfig.casual alwaysSingleZone halfStream msgStream0 0 0 =
      some [] ∧
    (([] : List CommitInfo).all
        (fun e => decide ((0 : ℤ) ≤ e.ts.date) && decide (e.ts.date ≤ (0 : ℤ))) = true ∧
      ([] : List CommitInfo).Pairwise (fun a b => tsLE a b = true)) := by
  have hse : (0 : ℤ) ≤ 0 := le_refl 0
  have hgen : generate PatternConfig.casual alwaysSingleZone halfStream msgStream0
      0 0 = some [] := by
    rw [generate_eq_some (by decide : walk PatternConfig.casual alwaysSingleZone
      halfStream msgStream0 (dateRange 0 0) ⟨false, 0, 0⟩ = some []) (by decide)]
    simp
  exact ⟨hse, hgen,
    generate_in_window_and_sorted PatternConfig.casual alwaysSingleZone halfStream
      msgStream0 0 0 [] hse hgen⟩

theorem map_nil_append (o : Option (List CommitInfo)) :
    o.map (fun x => [] ++ x) = o := by
  cases o <;> rfl

theorem walk_cons (cfg : PatternConfig) (tz : LocalZone) (streams : ℤ → ℕ → ℚ)
    (ms : ℕ → ℚ) (d : ℤ) (ds : List ℤ) (st : WalkState) :
    walk cfg tz streams ms (d :: ds) st =
      match stepDay cfg tz ms d (streams d) st with
      | none => none
      | some (st', evs) => (walk cfg tz streams ms ds st').map (evs ++ ·) := rfl

theorem walk_vacation_step (cfg : PatternConfig) (tz : LocalZone)
    (streams : ℤ → ℕ → ℚ) (ms : ℕ → ℚ) (endD : ℤ) {d : ℤ} {st : WalkState}
    (hd : d ≤ endD) (hv : st.inVacation = true) :
    walk cfg tz streams ms (dateRange d endD) st =
      walk cfg tz streams ms (dateRange (d + 1) endD)
        { st with inVacation := decide (d < st.vacationEnd) } := by
  rw [dateRange_cons hd, walk_cons, stepDay_vacation hv]
  exact map_nil_append _

theorem walk_vacation_window (cfg : PatternConfig) (tz : LocalZone)
    (streams : ℤ → ℕ → ℚ) (ms : ℕ → ℚ) (endD : ℤ) :
    ∀ (n : ℕ) (d : ℤ) (st : WalkState) (evs : List CommitInfo),
      (endD + 1 - d).toNat ≤ n →
      st.inVacation = true →
      walk cfg tz streams ms (dateRange d endD) st = some evs →
      ∀ e ∈ evs, ¬(d ≤ e.ts.date ∧ e.ts.date ≤ st.vacationEnd) := by
  intro n
  induction n with
  | zero =>
    intro d st evs hn hvac hw e he
    rw [dateRange_eq_nil (by omega)] at hw
    cases hw
    cases he
  | succ k ih =>
    intro d st evs hn hvac hw e he
    by_cases hd : d ≤ endD
    case neg =>
      rw [dateRange_eq_nil (by omega)] at hw
      cases hw
      cases he
    case pos =>
      rw [walk_vacation_step cfg tz streams ms endD hd hvac] at hw
      have hdates := mem_dateRange.mp (walk_dates hw e he)
      by_cases hlt : d < st.vacationEnd
      case pos =>
        have hvac2 :
            ({ st with inVacation := decide (d < st.vacationEnd) } : WalkState).inVacation
              = true := by
          simp [hlt]
        have hne := ih (d + 1) _ evs (by omega) hvac2 hw e he
        rintro ⟨h1, h2⟩
        exact hne ⟨hdates.1, h2⟩
      case neg =>
        rintro ⟨h1, h2⟩
        omega

/-- C9: on a walk day where the vacation trigger fires (the day's first draw
falls below `vacation_frequency` while not on vacation), the generator emits
no event dated that day — whatever vacation length is drawn, including 0. -/
theorem trigger_day_emits_nothing (cfg : PatternConfig) (tz : LocalZone)
    (streams : ℤ → ℕ → ℚ) (ms : ℕ → ℚ) (endD d : ℤ) (st : WalkState)
    (evs : List CommitInfo)
    (hvac : st.inVacation = false)
    (htrig : draw (streams d) 0 < cfg.vacationFrequency)
    (hw : walk cfg tz streams ms (dateRange d endD) st = some evs) :
    evs.all (fun e => decide (e.ts.date ≠ d)) = true := by
  rw [List.all_eq_true]
  intro e he
  by_cases hd : d ≤ endD
  case neg =>
    rw [dateRange_eq_nil (by omega)] at hw
    cases hw
    cases he
  case pos =>
    rw [dateRange_cons hd] at hw
    unfold walk at hw
    cases hlen : intRange cfg.vacationDuration.1 cfg.vacationDuration.2 (streams d 1) with
    | none =>
      rw [show stepDay cfg tz ms d (streams d) st = none from by
            simp [stepDay, hvac, htrig, hlen]] at hw
      simp at hw
    | some len =>
      rw [stepDay_trigger hvac htrig hlen] at hw
      dsimp only at hw
      obtain ⟨rest, hrest, rfl⟩ := Option.map_eq_some'.mp hw
      have he2 : e ∈ rest := by simpa using he
      have hdates := mem_dateRange.mp (walk_dates hrest e he2)
      simp only [decide_eq_true_eq]
      omega

theorem trigger_day_emits_nothing_witness :
    ((⟨false, 0, 0⟩ : WalkState).inVacation = false ∧
      draw (probeStream 0) 0 < zeroDurationConfig.vacationFrequency ∧
      walk zeroDurationConfig alwaysSingleZone probeStream msgStream0
          (dateRange 0 1) ⟨false, 0, 0⟩ =
        some (List.replicate 5 ⟨⟨1, 15, 30⟩, 0⟩)) ∧
    (List.replicate 5 (⟨⟨1, 15, 30⟩, 0⟩ : CommitInfo)).all
      (fun e => decide (e.ts.date ≠ (0 : ℤ))) = true := by
  refine ⟨⟨rfl, by decide, by decide⟩, ?_⟩
  exact trigger_day_emits_nothing zeroDurationConfig alwaysSingleZone probeStream
    msgStream0 1 0 ⟨false, 0, 0⟩ _ rfl (by decide) (by decide)

/-- C1 counterexample: on the walk `[0, 1]` with `vacationProbeConfig` and
`probeStream`, day 0 triggers a 1-day vacation ending on day 1; day 1 would
pass the work gate with a count of 5, yet the run emits nothing at all — the
`vacation_end` day is skipped rather than processed as an eligible work day. -/
theorem vacation_end_day_cex :
    generate vacationProbeConfig alwaysSingleZone probeStream msgStream0 0 1 =
      some [] ∧
    shouldWorkToday vacationProbeConfig 1 (shift 1 (probeStream 1)) = true ∧
    (getBaseCommits vacationProbeConfig 1 (shift 3 (probeStream 1))).map Prod.fst =
      some 5 := by
  refine ⟨?_, by decide, by decide⟩
  rw [generate_eq_some (by decide : walk vacationProbeConfig alwaysSingleZone
    probeStream msgStream0 (dateRange 0 1) ⟨false, 0, 0⟩ = some []) (by decide)]
  simp

/-- C1 amended: on the first walk day with `current_date ≥ vacation_end` the
ON_VACATION to ACTIVE transition is indeed applied, but that day itself is
still skipped with zero events — the walk continues from the next day in the
ACTIVE state, so the first eligible work day is the day after
`vacation_end`. -/
theorem vacation_end_day_still_skipped (cfg : PatternConfig) (tz : LocalZone)
    (streams : ℤ → ℕ → ℚ) (ms : ℕ → ℚ) (endD d : ℤ) (st : WalkState)
    (evs : List CommitInfo)
    (hvac : st.inVacation = true) (hend : st.vacationEnd ≤ d)
    (hw : walk cfg tz streams ms (dateRange d endD) st = some evs) :
    walk cfg tz streams ms (dateRange (d + 1) endD)
        { st with inVacation := false } =
      some evs ∧
    evs.all (fun e => decide (e.ts.date ≠ d)) = true := by
  by_cases hd : d ≤ endD
  case pos =>
    rw [walk_vacation_step cfg tz streams ms endD hd hvac] at hw
    have hdec : decide (d < st.vacationEnd) = false := by
      simp only [decide_eq_false_iff_not]
      omega
    rw [hdec] at hw
    refine ⟨hw, ?_⟩
    rw [List.all_eq_true]
    intro e he
    have hdates := mem_dateRange.mp (walk_dates hw e he)
    simp only [decide_eq_true_eq]
    omega
  case neg =>
    rw [dateRange_eq_nil (by omega)] at hw
    cases hw
    rw [dateRange_eq_nil (by omega)]
    exact ⟨rfl, rfl⟩

theorem vacation_end_day_still_skipped_witness :
    ((⟨true, 0, 0⟩ : WalkState).inVacation = true ∧
      (⟨true, 0, 0⟩ : WalkState).vacationEnd ≤ 0 ∧
      walk vacationProbeConfig alwaysSingleZone probeStream msgStream0
        (dateRange 0 0) ⟨true, 0, 0⟩ = some []) ∧
    (walk vacationProbeConfig alwaysSingleZone probeStream msgStream0
        (dateRange 1 0) ⟨false, 0, 0⟩ = some [] ∧
      ([] : List CommitInfo).all (fun e => decide (e.ts.date ≠ (0 : ℤ))) = true) := by
  refine ⟨⟨rfl, by decide, by decide⟩, ?_⟩
  exact vacation_end_day_still_skipped vacationProbeConfig alwaysSingleZone
    probeStream msgStream0 0 0 ⟨true, 0, 0⟩ [] rfl (by decide) (by decide)

/-- C2 counterexample: with `vacation_duration = (0, 0)` the drawn vacation
length is 0, yet the trigger day itself is suppressed: on the single-day walk
`[0, 0]` the trigger fires on day 0, the day would pass the work gate with a
count of 3, and the run emits nothing — a suppressed interval of 1 day,
outside the configured bounds `[0, 0]`. -/
theorem vacation_interval_length_cex :
    zeroDurationConfig.vacationDuration = (0, 0) ∧
    draw (probeStream 0) 0 < zeroDurationConfig.vacationFrequency ∧
    shouldWorkToday zeroDurationConfig 0 (shift 1 (probeStream 0)) = true ∧
    (getBaseCommits zeroDurationConfig 0 (shift 3 (probeStream 0))).map Prod.fst =
      some 3 ∧
    generate zeroDurationConfig alwaysSingleZone probeStream msgStream0 0 0 =
      some [] := by
  refine ⟨rfl, by decide, by decide, by decide, ?_⟩
  rw [generate_eq_some (by decide : walk zeroDurationConfig alwaysSingleZone
    probeStream msgStream0 (dateRange 0 0) ⟨false, 0, 0⟩ = some []) (by decide)]
  simp

/-- C2 amended: a vacation triggered on day `d` with drawn length `len`
suppresses every walk day in the closed interval `[d, d + len]` — `len + 1`
consecutive days, the trigger day included — and the drawn length lies within
the configured `vacation_duration` bounds; days inside the interval emit no
events. -/
theorem vacation_trigger_suppresses_window (cfg : PatternConfig)
    (tz : LocalZone) (streams : ℤ → ℕ → ℚ) (ms : ℕ → ℚ) (endD d : ℤ)
    (st : WalkState) (evs : List CommitInfo) (len : ℕ)
    (hvac : st.inVacation = false)
    (htrig : draw (streams d) 0 < cfg.vacationFrequency)
    (hlen : intRange cfg.vacationDuration.1 cfg.vacationDuration.2 (streams d 1) =
      some len)
    (hw : walk cfg tz streams ms (dateRange d endD) st = some evs) :
    evs.all (fun e => decide (¬(d ≤ e.ts.date ∧ e.ts.date ≤ d + (len : ℤ)))) = true ∧
    cfg.vacationDuration.1 ≤ len ∧ len ≤ cfg.vacationDuration.2 := by
  have hlb := intRange_bounds hlen
  refine ⟨?_, hlb.1, hlb.2⟩
  rw [List.all_eq_true]
  intro e he
  simp only [decide_eq_true_eq]
  by_cases hd : d ≤ endD
  case neg =>
    rw [dateRange_eq_nil (by omega)] at hw
    cases hw
    cases he
  case pos =>
    rw [dateRange_cons hd, walk_cons, stepDay_trigger hvac htrig hlen] at hw
    obtain ⟨rest, hrest, rfl⟩ := Option.map_eq_some'.mp hw
    have he2 : e ∈ rest := by simpa using he
    have hdates := mem_dateRange.mp (walk_dates hrest e he2)
    by_cases hl0 : len = 0
    case pos =>
      subst hl0
      omega
    case neg =>
      have hvac2 :
          ({ st with
              inVacation := decide (d < d + (len : ℤ))
              vacationEnd := d + (len : ℤ) } : WalkState).inVacation = true := by
        simp only [decide_eq_true_eq]
        omega
      have hwin := walk_vacation_window cfg tz streams ms endD
        (endD + 1 - (d + 1)).toNat (d + 1) _ rest (le_refl _) hvac2 hrest e he2
      rintro ⟨h1, h2⟩
      exact hwin ⟨hdates.1, h2⟩

theorem vacation_trigger_suppresses_window_witness :
    ((⟨false, 0, 0⟩ : WalkState).inVacation = false ∧
      draw (probeStream 0) 0 < vacationProbeConfig.vacationFrequency ∧
      intRange vacationProbeConfig.vacationDuration.1
        vacationProbeConfig.vacationDuration.2 (probeStream 0 1) = some 1 ∧
      walk vacationProbeConfig alwaysSingleZone probeStream msgStream0
        (dateRange 0 0) ⟨false, 0, 0⟩ = some []) ∧
    (([] : List CommitInfo).all
        (fun e => decide (¬((0 : ℤ) ≤ e.ts.date ∧ e.ts.date ≤ (0 : ℤ) + ((1 : ℕ) : ℤ)))) =
        true ∧
      vacationProbeConfig.vacationDuration.1 ≤ 1 ∧
      1 ≤ vacationProbeConfig.vacationDuration.2) := by
  refine ⟨⟨rfl, by decide, by decide, by decide⟩, ?_⟩
  exact vacation_trigger_suppresses_window vacationProbeConfig alwaysSingleZone
    probeStream msgStream0 0 0 ⟨false, 0, 0⟩ [] 1 rfl (by decide) (by decide)
    (by decide)

/-- C4 counterexample: the value object with `vacation_duration = (5, 2)` and
probabilities outside `[0, 1]` is accepted as a configuration — no
construction-time validation exists — and the failure only surfaces inside
generation (`none`, the `random_range` panic) once the vacation trigger
fires; with a non-empty duration range the same out-of-range
`vacation_frequency = 2` is used as-is and generation runs through. -/
theorem config_validation_cex :
    invalidConfig.vacationDuration.2 < invalidConfig.vacationDuration.1 ∧
    (1 : ℚ) < invalidConfig.vacationFrequency ∧
    generate invalidConfig alwaysSingleZone probeStream msgStream0 0 0 = none ∧
    invalidFreqConfig.vacationFrequency = 2 ∧
    generate invalidFreqConfig alwaysSingleZone probeStream msgStream0 0 0 =
      some [] := by
  refine ⟨by decide, by decide, ?_, by decide, ?_⟩
  · exact generate_none_of_walk (by decide)
  · rw [generate_eq_some (by decide : walk invalidFreqConfig alwaysSingleZone
      probeStream msgStream0 (dateRange 0 0) ⟨false, 0, 0⟩ = some []) (by decide)]
    simp

/-- C4 amended: `PatternConfig` construction performs no validation — any
field values are accepted.  A `vacation_duration` with min > max makes the
generation walk itself fail (the `random_range` panic, modelled as `none`) on
the first day whose vacation trigger fires; out-of-range probabilities are
used as stored, only the jittered work-gate probability being clamped during
the run. -/
theorem invalid_duration_fails_during_generation (cfg : PatternConfig)
    (tz : LocalZone) (streams : ℤ → ℕ → ℚ) (ms : ℕ → ℚ) (start endD : ℤ)
    (hdur : cfg.vacationDuration.2 < cfg.vacationDuration.1)
    (htrig : draw (streams start) 0 < cfg.vacationFrequency)
    (hse : start ≤ endD) :
    generate cfg tz streams ms start endD = none := by
  apply generate_none_of_walk
  rw [dateRange_cons hse, walk_cons,
    show stepDay cfg tz ms start (streams start) ⟨false, start, 0⟩ = none from by
      simp [stepDay, htrig, intRange_eq_none hdur]]

theorem invalid_duration_fails_during_generation_witness :
    (invalidConfig.vacationDuration.2 < invalidConfig.vacationDuration.1 ∧
      draw (probeStream 0) 0 < invalidConfig.vacationFrequency ∧
      (0 : ℤ) ≤ 0) ∧
    generate invalidConfig alwaysSingleZone probeStream msgStream0 0 0 = none := by
  refine ⟨⟨by decide, by decide, le_refl 0⟩, ?_⟩
  exact invalid_duration_fails_during_generation invalidConfig alwaysSingleZone
    probeStream msgStream0 0 0 (by decide) (by decide) (le_refl 0)

/-- C5: the calibrator buckets the damped average `(T / N) * 0.9` by the
ascending thresholds 5, 15, 30, 50 into the five intensity levels, always
returns `vacation_duration = (1, 4)` and `spike_multiplier = 2.8`, and its
per-level tables are strictly monotone: vacation frequency strictly decreases
and spike probability strictly increases as the intensity level rises. -/
theorem calibrate_thresholds_and_tables (T : ℕ) (N : ℤ) (hN : 0 < N) :
    ((T : ℚ) / (N : ℚ) * (9/10) < 5 →
      (calibratePatternForTarget T N).intensity = IntensityLevel.casual) ∧
    (5 ≤ (T : ℚ) / (N : ℚ) * (9/10) → (T : ℚ) / (N : ℚ) * (9/10) < 15 →
      (calibratePatternForTarget T N).intensity = IntensityLevel.active) ∧
    (15 ≤ (T : ℚ) / (N : ℚ) * (9/10) → (T : ℚ) / (N : ℚ) * (9/10) < 30 →
      (calibratePatternForTarget T N).intensity = IntensityLevel.maintainer) ∧
    (30 ≤ (T : ℚ) / (N : ℚ) * (9/10) → (T : ℚ) / (N : ℚ) * (9/10) < 50 →
      (calibratePatternForTarget T N).intensity = IntensityLevel.hyperactive) ∧
    (50 ≤ (T : ℚ) / (N : ℚ) * (9/10) →
      (calibratePatternForTarget T N).intensity = IntensityLevel.extreme) ∧
    (calibratePatternForTarget T N).vacationDuration = (1, 4) ∧
    (calibratePatternForTarget T N).spikeMultiplier = 14/5 ∧
    (calibratePatternForTarget T N).vacationFrequency =
      calibVacationFreq (calibratePatternForTarget T N).intensity ∧
    (calibratePatternForTarget T N).spikeProbability =
      calibSpikeProb (calibratePatternForTarget T N).intensity ∧
    (∀ l1 l2 : IntensityLevel, levelIdx l1 < levelIdx l2 →
      calibVacationFreq l2 < calibVacationFreq l1 ∧
      calibSpikeProb l1 < calibSpikeProb l2) := by
  refine ⟨?_, ?_, ?_, ?_, ?_, rfl, rfl, rfl, rfl, ?_⟩
  · intro h1
    simp [calibratePatternForTarget, h1]
  · intro h1 h2
    simp [calibratePatternForTarget, not_lt.2 h1, h2]
  · intro h1 h2
    have h5 : (5 : ℚ) ≤ (T : ℚ) / (N : ℚ) * (9/10) := le_trans (by norm_num) h1
    simp [calibratePatternForTarget, not_lt.2 h5, not_lt.2 h1, h2]
  · intro h1 h2
    have h5 : (5 : ℚ) ≤ (T : ℚ) / (N : ℚ) * (9/10) := le_trans (by norm_num) h1
    have h15 : (15 : ℚ) ≤ (T : ℚ) / (N : ℚ) * (9/10) := le_trans (by norm_num) h1
    simp [calibratePatternForTarget, not_lt.2 h5, not_lt.2 h15, not_lt.2 h1, h2]
  · intro h1
    have h5 : (5 : ℚ) ≤ (T : ℚ) / (N : ℚ) * (9/10) := le_trans (by norm_num) h1
    have h15 : (15 : ℚ) ≤ (T : ℚ) / (N : ℚ) * (9/10) := le_trans (by norm_num) h1
    have h30 : (30 : ℚ) ≤ (T : ℚ) / (N : ℚ) * (9/10) := le_trans (by norm_num) h1
    simp [calibratePatternForTarget, not_lt.2 h5, not_lt.2 h15, not_lt.2 h30,
      not_lt.2 h1]
  · intro l1 l2
    cases l1 <;> cases l2 <;> decide

theorem calibrate_thresholds_and_tables_witness :
    (0 : ℤ) < 300 ∧
    (calibratePatternForTarget 5000 300).intensity = IntensityLevel.maintainer := by
  have h := calibrate_thresholds_and_tables 5000 300 (by norm_num)
  exact ⟨by norm_num, h.2.2.1 (by norm_num) (by norm_num)⟩

/-- C7: the day-seeded randomness mixes the wall-clock entropy only through
`entropy % 1000` into the seed, so two daily-volume evaluations (work gate,
base draw, rhythm, spike and zero-floor) for the same date and configuration
with the entropy term fixed — or even merely congruent mod 1000 — produce
identical counts, whatever stream function the seed feeds. -/
theorem daily_volume_deterministic (chacha : ℕ → ℕ → ℚ) (cfg : PatternConfig)
    (d : ℤ) (e1 e2 : ℕ) (he : e1 % 1000 = e2 % 1000) :
    dailyVolumeSeeded chacha cfg d e1 = dailyVolumeSeeded chacha cfg d e2 := by
  unfold dailyVolumeSeeded dateSeed
  rw [he]

theorem daily_volume_deterministic_witness :
    (1000 % 1000 = 2000 % 1000) ∧
    dailyVolumeSeeded (fun _ _ => (1 : ℚ)/2) PatternConfig.casual 0 1000 =
      dailyVolumeSeeded (fun _ _ => (1 : ℚ)/2) PatternConfig.casual 0 2000 :=
  ⟨rfl, daily_volume_deterministic (fun _ _ => (1 : ℚ)/2) PatternConfig.casual 0
    1000 2000 rfl⟩

/-- C8: the preset name "realistic" is an alias of "active": both wrapper
patterns hold the same fixed configuration `PatternConfig::active`, so their
generate functions agree on every date range and every randomness. -/
theorem realistic_is_alias_of_active :
    createPattern "realistic" = some RealisticPattern.config ∧
    createPattern "active" = some ActivePattern.config ∧
    RealisticPattern.config = ActivePattern.config ∧
    ∀ (tz : LocalZone) (streams : ℤ → ℕ → ℚ) (ms : ℕ → ℚ) (start endD : ℤ),
      RealisticPattern.generate tz streams ms start endD =
        ActivePattern.generate tz streams ms start endD :=
  ⟨by decide, by decide, rfl, fun _ _ _ _ _ => rfl⟩

theorem applyRhythm_le {cfg : PatternConfig} {d : ℤ} {c0 : ℕ} {s : ℕ → ℚ}
    {M cap : ℕ} (hc0 : c0 ≤ M)
    (hMcap : (M : ℚ) * (23/20) < (cap : ℚ) + 1) (hMcap2 : M ≤ cap) :
    (applyRhythm cfg d c0 s).1 ≤ cap := by
  unfold applyRhythm
  split
  · apply truncToNat_le
    have hm0 := getWeeklyMultiplier_nonneg d (s 1)
    have hmlt := getWeeklyMultiplier_lt d (s 1)
    have h1 : (c0 : ℚ) * getWeeklyMultiplier d (s 1) ≤
        (M : ℚ) * getWeeklyMultiplier d (s 1) := by
      apply mul_le_mul_of_nonneg_right _ hm0
      exact_mod_cast hc0
    have h2 : (M : ℚ) * getWeeklyMultiplier d (s 1) ≤ (M : ℚ) * (23/20) :=
      mul_le_mul_of_nonneg_left (le_of_lt hmlt) (by positivity)
    linarith
  · exact le_trans hc0 hMcap2

theorem applySpike_le {cfg : PatternConfig} {c1 i1 : ℕ} {s : ℕ → ℚ} {cap : ℕ}
    (hc1 : c1 ≤ cap) (hcap : cfg.intensity.spikeCap ≤ cap) :
    (applySpike cfg c1 i1 s).1 ≤ cap := by
  unfold applySpike
  split
  · exact le_trans (min_le_right _ _) hcap
  · exact hc1

theorem zeroFloor_le {c2 i2 : ℕ} {s : ℕ → ℚ} {cap : ℕ}
    (hc2 : c2 ≤ cap) (hcap1 : 1 ≤ cap) :
    (zeroFloor c2 i2 s).1 ≤ cap := by
  unfold zeroFloor
  split
  · split
    · exact Nat.zero_le _
    · simp only
      omega
  · simp only
    omega

theorem dayRange_cap_bound (cfg : PatternConfig) (d : ℤ) :
    ((dayRange cfg d).2 : ℚ) * (23/20) < (cfg.intensity.spikeCap : ℚ) + 1 ∧
    (dayRange cfg d).2 ≤ cfg.intensity.spikeCap ∧
    1 ≤ cfg.intensity.spikeCap := by
  unfold dayRange
  cases hι : cfg.intensity <;> cases hw : isWeekend d <;>
    simp [IntensityLevel.getWeekendRange, IntensityLevel.getWeekdayRange,
      IntensityLevel.spikeCap] <;> norm_num

theorem getBaseCommits_le_cap {cfg : PatternConfig} {d : ℤ} {s : ℕ → ℚ}
    {p : ℕ × ℕ} (h : getBaseCommits cfg d s = some p) :
    p.1 ≤ cfg.intensity.spikeCap := by
  obtain ⟨hA, hB, hC⟩ := dayRange_cap_bound cfg d
  unfold getBaseCommits at h
  cases hb : intRange (dayRange cfg d).1 (dayRange cfg d).2 (s 0) with
  | none =>
    rw [hb] at h
    cases h
  | some c0 =>
    rw [hb] at h
    dsimp only at h
    cases h
    have hc0 := (intRange_bounds hb).2
    have h1 := @applyRhythm_le cfg d c0 s (dayRange cfg d).2
      cfg.intensity.spikeCap hc0 hA hB
    have h2 := @applySpike_le cfg (applyRhythm cfg d c0 s).1 (applyRhythm cfg d c0 s).2
      s cfg.intensity.spikeCap h1 (le_refl cfg.intensity.spikeCap)
    exact zeroFloor_le h2 hC

/-- C10: for every configuration and date, a day's volume-model count never
exceeds the spike cap of the configured intensity level — on spike days the
count is clamped to the cap, and without a spike the base-range maximum times
the largest possible rhythm multiplier stays below the cap at every level;
the caps are 15, 40, 60, 100 and 150 for Casual through Extreme. -/
theorem daily_volume_le_spike_cap (cfg : PatternConfig) (d : ℤ) (s : ℕ → ℚ)
    (n : ℕ) (h : dailyVolume cfg d s = some n) :
    n ≤ cfg.intensity.spikeCap ∧
    IntensityLevel.casual.spikeCap = 15 ∧
    IntensityLevel.active.spikeCap = 40 ∧
    IntensityLevel.maintainer.spikeCap = 60 ∧
    IntensityLevel.hyperactive.spikeCap = 100 ∧
    IntensityLevel.extreme.spikeCap = 150 := by
  refine ⟨?_, rfl, rfl, rfl, rfl, rfl⟩
  unfold dailyVolume at h
  split at h
  · obtain ⟨p, hp, rfl⟩ := Option.map_eq_some'.mp h
    exact getBaseCommits_le_cap hp
  · cases h
    exact Nat.zero_le _

theorem daily_volume_le_spike_cap_witness :
    dailyVolume PatternConfig.casual 0 (fun _ => (1 : ℚ)/2) = some 0 ∧
    (0 ≤ PatternConfig.casual.intensity.spikeCap ∧
      IntensityLevel.casual.spikeCap = 15) := by
  have hd : dailyVolume PatternConfig.casual 0 (fun _ => (1 : ℚ)/2) = some 0 := by
    decide
  have h := daily_volume_le_spike_cap PatternConfig.casual 0 (fun _ => (1 : ℚ)/2) 0 hd
  exact ⟨hd, h.1, h.2.1⟩

end GithubGrid
